import Mathlib

/-!
Verification development for the DispatchIQ live call orchestration engine.

The definitions below are shallow embeddings of the TypeScript sources:
the Twilio/Deepgram server (`server/index.ts` and its Deepgram variants),
the combined AI/human server (`app/history/page.tsx`), the analysis API
route (`app/api/analyze/route.ts`) and the dashboard client
(`app/components/Dashboard.tsx`).  JavaScript objects with possibly-null,
possibly-absent keys are embedded as records of `Option` fields, where for
update objects an outer `Option` layer records key presence and the inner
one records null versus a string value.  Maps keyed by call sid are
embedded as association lists with JavaScript `Map.set`/`Map.get`
semantics.
-/

/-- Urgency levels, from `type Urgency = 'Low' | 'Medium' | 'Critical'`. -/
inductive Urgency where
  | low
  | medium
  | critical
deriving DecidableEq, Repr

/-- The six structured incident fields, from `interface IncidentDetails`. -/
inductive IncField where
  | location
  | type
  | injuries
  | threatLevel
  | peopleCount
  | callerRole
deriving DecidableEq, Repr

/-- Incident record, from `interface IncidentDetails` (each field is
`string | null`, embedded as `Option String`). -/
structure IncidentDetails where
  location : Option String
  type : Option String
  injuries : Option String
  threatLevel : Option String
  peopleCount : Option String
  callerRole : Option String
deriving DecidableEq, Repr

/-- The all-null incident installed at call start in the `start` case of
the media websocket handler. -/
def freshIncident : IncidentDetails :=
  { location := none, type := none, injuries := none, threatLevel := none
    peopleCount := none, callerRole := none }

/-- IncField projection of an incident record. -/
def IncidentDetails.get (inc : IncidentDetails) : IncField → Option String
  | IncField.location => inc.location
  | IncField.type => inc.type
  | IncField.injuries => inc.injuries
  | IncField.threatLevel => inc.threatLevel
  | IncField.peopleCount => inc.peopleCount
  | IncField.callerRole => inc.callerRole

/-- An extraction-result update object, from the `updates` payload of the
analysis API (`Partial<IncidentDetails & \x7b urgency: Urgency \x7d>`): each
incident key may be absent (outer `none`), present with null (`some none`)
or present with a string (`some (some s)`); `urgency` may be absent. -/
structure AnalysisUpdates where
  location : Option (Option String)
  type : Option (Option String)
  injuries : Option (Option String)
  threatLevel : Option (Option String)
  peopleCount : Option (Option String)
  callerRole : Option (Option String)
  urgency : Option Urgency
deriving DecidableEq, Repr

/-- The update object with no keys present. -/
def AnalysisUpdates.empty : AnalysisUpdates :=
  { location := none, type := none, injuries := none, threatLevel := none
    peopleCount := none, callerRole := none, urgency := none }

/-- IncField projection of an update object (incident fields only). -/
def AnalysisUpdates.get (u : AnalysisUpdates) : IncField → Option (Option String)
  | IncField.location => u.location
  | IncField.type => u.type
  | IncField.injuries => u.injuries
  | IncField.threatLevel => u.threatLevel
  | IncField.peopleCount => u.peopleCount
  | IncField.callerRole => u.callerRole

/-- Embedding of `state.incident = \x7b ...state.incident, ...fields \x7d` in
`analyzeAndBroadcast` (server/index.ts lines 1195-1197 and the Deepgram
server variant): JavaScript object spread, so a key present in the update
object overwrites the stored field with its value, null included, and an
absent key leaves the stored field unchanged. -/
def mergeIncident (inc : IncidentDetails) (u : AnalysisUpdates) : IncidentDetails :=
  { location := (u.location).getD inc.location
    type := (u.type).getD inc.type
    injuries := (u.injuries).getD inc.injuries
    threatLevel := (u.threatLevel).getD inc.threatLevel
    peopleCount := (u.peopleCount).getD inc.peopleCount
    callerRole := (u.callerRole).getD inc.callerRole }

/-- Call state carried per call sid, from `interface CallState`. -/
structure CallState where
  messages : List String
  incident : IncidentDetails
  urgency : Urgency
  nextQuestion : Option String
deriving DecidableEq, Repr

/-- Embedding of the update block of `analyzeAndBroadcast`:
`const \x7b urgency, ...fields \x7d = updates; if (urgency) state.urgency = urgency;
state.incident = \x7b ...state.incident, ...fields \x7d`. -/
def applyAnalysisUpdates (st : CallState) (u : AnalysisUpdates) : CallState :=
  { st with
    urgency := (u.urgency).getD st.urgency
    incident := mergeIncident st.incident u }

/-- The fresh call state installed at call start in the `start` case. -/
def freshCallState : CallState :=
  { messages := [], incident := freshIncident, urgency := Urgency.low
    nextQuestion := none }

/-- Association-list lookup with JavaScript `Map.get` semantics. -/
def lookupA {α : Type} : List (String × α) → String → Option α
  | [], _ => none
  | (k, v) :: rest, key => if k = key then some v else lookupA rest key

/-- Association-list update with JavaScript `Map.set` semantics: replace
the existing binding for the key if present, otherwise append. -/
def setA {α : Type} : List (String × α) → String → α → List (String × α)
  | [], key, v => [(key, v)]
  | (k, w) :: rest, key, v =>
      if k = key then (k, v) :: rest else (k, w) :: setA rest key v

/-- The update object `\x7b location: "123 Main St" \x7d` from the merge
example. -/
def updateLocationMain : AnalysisUpdates :=
  { AnalysisUpdates.empty with location := some (some "123 Main St") }

/-- The update object `\x7b location: null \x7d` from the merge example:
the `location` key is present and carries null. -/
def updateLocationNull : AnalysisUpdates :=
  { AnalysisUpdates.empty with location := some none }

/-- The incident `\x7b location: null, type: "Fire" \x7d` from the merge
example. -/
def incidentFireNoLocation : IncidentDetails :=
  { freshIncident with type := some "Fire" }

/-- Per-call live session entry, from the Deepgram server `callSessionMap`
value `\x7b ws; streamSid; tts?; speaking?; ... \x7d`: the transport handle is
not modeled, `ttsAttached` records whether a synthesis handle (`tts`) is
currently attached, `speaking` is the playback flag. -/
structure LiveSession where
  streamSid : String
  speaking : Bool
  ttsAttached : Bool
deriving DecidableEq, Repr

/-- Messages sent from the server to the telephony bridge: a `clear`
playback signal (`sendTwilioClear`), an outbound synthesized audio frame
(`sendTwilioMedia`), or a frame forwarded inbound to the transcription
pipeline (`deepgramConnection.send`). -/
inductive TwilioOut where
  | clear (streamSid : String)
  | media (streamSid : String) (payload : String)
  | toDeepgram (payload : String)
deriving DecidableEq, Repr

/-- Embedding of the `media` case of the Twilio websocket handler in the
Deepgram server variant (src/unnamed/part_012 lines 665-697): when a
caller audio frame with a payload arrives and the session is speaking, the
handler inline sends a clear signal, sets `speaking` to false and closes
and detaches the TTS handle, then forwards the frame to the transcription
pipeline. -/
def mediaCase (s : LiveSession) (payload : String) : LiveSession × List TwilioOut :=
  if payload = "" then (s, [])
  else
    let bargeIn :=
      if s.speaking ∧ s.streamSid ≠ "" then
        ({ s with speaking := false, ttsAttached := false },
          [TwilioOut.clear s.streamSid])
      else (s, [])
    (bargeIn.1, bargeIn.2 ++ [TwilioOut.toDeepgram payload])

/-- Embedding of the interim branch of the `LiveTranscriptionEvents.Transcript`
handler (src/unnamed/part_013 lines 676-688): a partial transcript while
`speaking` is true triggers barge-in, sending a clear signal, setting
`speaking` to false and aborting and detaching the TTS handle. -/
def interimTranscriptCase (s : LiveSession) : LiveSession × List TwilioOut :=
  if s.speaking ∧ s.streamSid ≠ "" then
    ({ s with speaking := false, ttsAttached := false },
      [TwilioOut.clear s.streamSid])
  else (s, [])

/-- Forwarding of one synthesized audio chunk by the TTS stream pump of
`startAuraTts`: once the handle has been aborted and detached, the reader
loop has terminated, so a chunk is forwarded to the bridge only while the
handle is still attached. -/
def ttsForwardChunk (s : LiveSession) (chunk : String) : List TwilioOut :=
  if s.ttsAttached then [TwilioOut.media s.streamSid chunk] else []

/-- The ways a `startAuraTts` invocation can terminate: an HTTP error
response, normal completion of the audio stream after delivering its
chunks, or an abort (barge-in or teardown) after delivering a prefix of
the chunks. -/
inductive TtsOutcome where
  | httpError
  | completed (chunks : List String)
  | aborted (delivered : List String)
deriving DecidableEq, Repr

/-- Embedding of `startAuraTts` (src/unnamed/part_013 lines 746-826) as a
map from session registry and termination cause to the final registry and
the audio frames sent: if no session exists the function returns at once;
otherwise it attaches a TTS handle, sets `speaking := true`, streams the
delivered chunks, and in every termination path (HTTP error return, end of
stream, AbortError) the `finally` block sets the session's `speaking`
to false and detaches the handle. -/
def startAuraTts (m : List (String × LiveSession)) (callSid : String)
    (outcome : TtsOutcome) : List (String × LiveSession) × List TwilioOut :=
  match lookupA m callSid with
  | none => (m, [])
  | some s =>
      let delivered :=
        match outcome with
        | TtsOutcome.httpError => []
        | TtsOutcome.completed chunks => chunks
        | TtsOutcome.aborted chunks => chunks
      (setA m callSid { s with speaking := false, ttsAttached := false },
        delivered.map (fun c => TwilioOut.media s.streamSid c))

/-- State of the extraction scheduler for one call: the transcript plus
the number of `analyzeAndBroadcast` calls currently running. -/
structure ExtState where
  inflight : Nat
  messages : List String
deriving DecidableEq, Repr

/-- Events seen by the extraction scheduler: a finalized utterance from
the transcription pipeline, or completion of one background analysis
call. -/
inductive ExtEvent where
  | finalUtterance (text : String)
  | complete
deriving DecidableEq, Repr

/-- Embedding of the final branch of the Transcript handler
(src/unnamed/part_013 lines 663-675, server/index.ts lines 961-981)
together with completion of a background call: on a final utterance the
handler pushes the message and unconditionally fires
`void analyzeAndBroadcast(callSid, state)` with no in-flight guard, so the
number of running analysis calls increments; a completion decrements
it. -/
def extStep (s : ExtState) : ExtEvent → ExtState
  | ExtEvent.finalUtterance text =>
      { inflight := s.inflight + 1, messages := s.messages ++ [text] }
  | ExtEvent.complete => { s with inflight := s.inflight - 1 }

/-- Run the extraction scheduler over an event sequence. -/
def extRun (s : ExtState) (evs : List ExtEvent) : ExtState :=
  evs.foldl extStep s

/-- Number of finalized utterances in an event sequence. -/
def countFinal : List ExtEvent → Nat
  | [] => 0
  | ExtEvent.finalUtterance _ :: rest => countFinal rest + 1
  | ExtEvent.complete :: rest => countFinal rest

/-- Number of analysis completions in an event sequence. -/
def countComplete : List ExtEvent → Nat
  | [] => 0
  | ExtEvent.finalUtterance _ :: rest => countComplete rest
  | ExtEvent.complete :: rest => countComplete rest + 1

/-- Registry owned by the Twilio websocket handler: `callStateMap`,
the pipeline connection per call (`activeConnections`), and a counter
numbering freshly created pipeline connections. -/
structure RegistryState where
  callStates : List (String × CallState)
  connections : List (String × Nat)
  nextConn : Nat
deriving DecidableEq, Repr

/-- Embedding of the `start` case of `wss.on('connection')`
(src/unnamed/part_013 lines 408-461, server/index.ts lines 1049-1082): the
handler unconditionally `set`s a fresh call state and a newly created
pipeline connection for the call sid; no existing-session check is
performed. -/
def startCase (st : RegistryState) (callSid : String) : RegistryState :=
  { callStates := setA st.callStates callSid freshCallState
    connections := setA st.connections callSid st.nextConn
    nextConn := st.nextConn + 1 }

/-- Embedding of the transcript append performed by the final branch of
the Transcript handler: `state.messages.push(msgObj)` when the call state
exists. -/
def finalTranscriptCase (st : RegistryState) (callSid : String) (text : String) :
    RegistryState :=
  match lookupA st.callStates callSid with
  | none => st
  | some cs =>
      let cs2 := { cs with messages := cs.messages ++ [text] }
      { st with callStates := setA st.callStates callSid cs2 }

/-- The empty registry. -/
def regInit : RegistryState := { callStates := [], connections := [], nextConn := 0 }

/-- Registry after a start, one final utterance, and a duplicate start for
the same call sid. -/
def dupStartState1 : RegistryState := startCase regInit "CA100"

/-- Registry after the first utterance of the duplicate-start scenario. -/
def dupStartState2 : RegistryState :=
  finalTranscriptCase dupStartState1 "CA100" "there is a fire"

/-- Registry after the duplicate start event. -/
def dupStartState3 : RegistryState := startCase dupStartState2 "CA100"

/-- State of the combined AI/human server (app/history/page.tsx): the
process-wide `aiModeEnabled` toggle and, per call sid, the
`isThisCallAiMode` value captured by the websocket handler. -/
structure ModeServerState where
  aiModeEnabled : Bool
  sessions : List (String × Bool)
deriving DecidableEq, Repr

/-- Events of the combined server relevant to pipeline routing: a
`POST /api/ai-mode` toggle write, a Twilio `start` event (which
executes `isThisCallAiMode = aiModeEnabled`), and a `media` frame. -/
inductive ModeEvent where
  | setAiMode (enabled : Bool)
  | start (callSid : String)
  | media (callSid : String) (payload : String)
deriving DecidableEq, Repr

/-- Destination of a routed audio frame. -/
inductive PipelineOut where
  | toOpenAI (payload : String)
  | toDeepgram (payload : String)
deriving DecidableEq, Repr

/-- One step of the combined server (app/history/page.tsx lines
657-662 and 1424-1545): the toggle write updates only the global; the
start event captures the current toggle value into the per-call mode; a
media frame is routed to OpenAI or Deepgram purely by the captured
per-call mode, never by the current toggle. -/
def modeStep (st : ModeServerState) : ModeEvent → ModeServerState × List PipelineOut
  | ModeEvent.setAiMode b => ({ st with aiModeEnabled := b }, [])
  | ModeEvent.start sid =>
      ({ st with sessions := setA st.sessions sid st.aiModeEnabled }, [])
  | ModeEvent.media sid payload =>
      match lookupA st.sessions sid with
      | some true => (st, [PipelineOut.toOpenAI payload])
      | some false => (st, [PipelineOut.toDeepgram payload])
      | none => (st, [])

/-- Run the combined server over an event sequence, collecting routed
frames. -/
def modeRun (st : ModeServerState) : List ModeEvent → ModeServerState × List PipelineOut
  | [] => (st, [])
  | e :: rest =>
      let r1 := modeStep st e
      let r2 := modeRun r1.1 rest
      (r2.1, r1.2 ++ r2.2)

/-- Message sender, from `sender: 'caller' | 'dispatcher'`. -/
inductive Sender where
  | caller
  | dispatcher
deriving DecidableEq, Repr

/-- Transcript message, from `interface TranscriptMessage`; `interim`
embeds the source's partial-result flag (`isPartial`). -/
structure TranscriptMessage where
  id : String
  sender : Sender
  text : String
  interim : Bool
deriving DecidableEq, Repr

/-- Debounce window of the dashboard extraction scheduler, from
`const DEBOUNCE_MS = 350` in Dashboard.tsx. -/
def DEBOUNCE_MS : Nat := 350

/-- Which debounce timers fire, given the arrival times of the message
events: the `useEffect` in Dashboard.tsx (lines 314-327) clears the
pending timer and sets a fresh one on every arrival, so the timer set at
arrival `i` fires exactly when no further arrival happens within the
debounce window (it is the last arrival, or the next arrival comes at
least `DEBOUNCE_MS` later). -/
def firedTimers (times : List Nat) : List Nat :=
  (List.range times.length).filter (fun i =>
    match times.get? (i + 1) with
    | none => true
    | some tn => decide (times.getD i 0 + DEBOUNCE_MS ≤ tn))

/-- Embedding of `callAnalysisApi` (Dashboard.tsx lines 237-243): skip
when there is no message, when the latest message is partial, or when the
latest message id was already analyzed; otherwise issue one extraction
call over the current transcript and record the analyzed id. -/
def callAnalysisApi (msgs : List TranscriptMessage) (lastAnalyzedId : Option String) :
    Option (List TranscriptMessage) × Option String :=
  match msgs.getLast? with
  | none => (none, lastAnalyzedId)
  | some m =>
      if m.interim then (none, lastAnalyzedId)
      else if lastAnalyzedId = some m.id then (none, lastAnalyzedId)
      else (some msgs, some m.id)

/-- Extraction calls issued by the dashboard for a sequence of message
arrivals `(time, message)`: each fired debounce timer runs
`callAnalysisApi` over the transcript as of its arrival, threading the
last-analyzed id. -/
def extractionCalls (arrivals : List (Nat × TranscriptMessage)) :
    List (List TranscriptMessage) :=
  ((firedTimers (arrivals.map Prod.fst)).foldl
    (fun acc i =>
      let msgs := (arrivals.take (i + 1)).map Prod.snd
      match callAnalysisApi msgs acc.2 with
      | (some call, last) => (acc.1 ++ [call], last)
      | (none, last) => (acc.1, last))
    ([], none)).1

/-- Substring test, embedding a JavaScript regex alternation of literal
words applied with `.test`. -/
def containsSub (hay needle : String) : Bool :=
  hay.data.tails.any (fun suffix => needle.data.isPrefixOf suffix)

/-- Does the text contain any of the literal alternatives? -/
def containsAny (hay : String) (needles : List String) : Bool :=
  needles.any (fun n => containsSub hay n)

/-- JavaScript falsiness of a `string | null` value: null and the empty
string are falsy. -/
def strFalsy : Option String → Bool
  | none => true
  | some s => s == ""

/-- JavaScript falsiness of a possibly-absent `string | null` update
value. -/
def updFalsy : Option (Option String) → Bool
  | none => true
  | some none => true
  | some (some s) => s == ""

/-- `REQUIRED_FIELDS` from app/api/analyze/route.ts. -/
def REQUIRED_FIELDS : List IncField :=
  [IncField.location, IncField.type, IncField.injuries, IncField.threatLevel,
   IncField.peopleCount, IncField.callerRole]

/-- Body of a successful analysis response, from
`interface AnalysisResponsePayload` (`rawModelText` omitted). -/
structure AnalysisResponsePayload where
  updates : AnalysisUpdates
  missing : List IncField
  nextQuestion : Option String
deriving DecidableEq, Repr

/-- The four dispatcher questions `mockAnalysis` can suggest. -/
def mockQuestions : List String :=
  ["What is the exact address of the emergency?",
   "How many people are involved or nearby?",
   "Do you feel there is any immediate danger right now?",
   "Stay on the line. Are you and everyone nearby in a safe place?"]

/-- Embedding of `mockAnalysis` (app/api/analyze/route.ts lines 212-257):
a deterministic heuristic over the last caller message, lowercased: word
tests set `type` and `injuries` when currently unset, the missing list
filters `REQUIRED_FIELDS` by falsiness of both incident and updates, a
derived urgency is included only when it differs, and a next question is
chosen by priority from the missing list. -/
def mockAnalysis (messages : List TranscriptMessage) (incident : IncidentDetails)
    (urgency : Urgency) : AnalysisResponsePayload :=
  let lastCallerMsg := messages.reverse.find? (fun m =>
    match m.sender with
    | Sender.caller => true
    | Sender.dispatcher => false)
  let text := (lastCallerMsg.map (fun m => m.text.toLower)).getD ""
  let u1 :=
    if strFalsy incident.type && containsAny text ["fire", "smoke", "burning"] then
      { AnalysisUpdates.empty with type := some (some "Fire") }
    else AnalysisUpdates.empty
  let u2 :=
    if strFalsy incident.type && containsAny text ["gun", "weapon", "shots"] then
      { u1 with type := some (some "Police") }
    else u1
  let u3 :=
    if strFalsy incident.injuries && containsAny text ["hurt", "injur", "bleed"] then
      { u2 with injuries := some (some "Reported") }
    else u2
  let missing := REQUIRED_FIELDS.filter (fun k =>
    strFalsy (incident.get k) && updFalsy (u3.get k))
  let derivedUrgency :=
    if containsAny text ["unconscious", "not breathing", "shots", "gun", "bleeding"] then
      Urgency.critical
    else if containsAny text ["fire", "smoke"] then Urgency.medium
    else urgency
  let u4 :=
    if derivedUrgency ≠ urgency then { u3 with urgency := some derivedUrgency }
    else u3
  let nextQuestion :=
    if IncField.location ∈ missing then
      "What is the exact address of the emergency?"
    else if IncField.peopleCount ∈ missing then
      "How many people are involved or nearby?"
    else if IncField.threatLevel ∈ missing then
      "Do you feel there is any immediate danger right now?"
    else "Stay on the line. Are you and everyone nearby in a safe place?"
  { updates := u4, missing := missing, nextQuestion := some nextQuestion }

/-- The ways the Gemini call inside `runGeminiAnalysis` can go: missing
API key (heuristic fallback returned directly), network failure, non-OK
HTTP status, unparseable model output (each of which throws), or a parsed
result. -/
inductive GeminiOutcome where
  | noApiKey
  | fetchFailed
  | httpNotOk (status : Nat)
  | unparseable
  | ok (result : AnalysisResponsePayload)
deriving DecidableEq, Repr

/-- Embedding of `runGeminiAnalysis` (app/api/analyze/route.ts lines
100-144): with no API key it returns the heuristic result without
throwing; a fetch failure, non-OK status or unparseable output throws;
otherwise it returns the parsed payload. -/
def runGeminiAnalysis (messages : List TranscriptMessage)
    (incident : IncidentDetails) (urgency : Urgency) (outcome : GeminiOutcome) :
    Except Unit AnalysisResponsePayload :=
  match outcome with
  | GeminiOutcome.noApiKey => Except.ok (mockAnalysis messages incident urgency)
  | GeminiOutcome.fetchFailed => Except.error ()
  | GeminiOutcome.httpNotOk _ => Except.error ()
  | GeminiOutcome.unparseable => Except.error ()
  | GeminiOutcome.ok r => Except.ok r

/-- Embedding of the `POST` handler of app/api/analyze/route.ts (lines
34-91) as HTTP status plus optional response body: a request without an
incident payload gets 400; otherwise the Gemini result is returned with
200, and any thrown error is caught and answered with 200 carrying the
`mockAnalysis` fallback. -/
def analyzePOST (incident : Option IncidentDetails)
    (messages : List TranscriptMessage) (urgency : Urgency)
    (outcome : GeminiOutcome) : Nat × Option AnalysisResponsePayload :=
  match incident with
  | none => (400, none)
  | some inc =>
      match runGeminiAnalysis messages inc urgency outcome with
      | Except.ok r => (200, some r)
      | Except.error _ => (200, some (mockAnalysis messages inc urgency))

/-- Case-insensitive literal match at the head of the input, returning
the remaining characters: matching one literal alternative of a
case-insensitive JavaScript regex. -/
def matchLitCI : List Char → List Char → Option (List Char)
  | [], s => some s
  | _ :: _, [] => none
  | c :: cs, d :: ds => if c.toLower = d.toLower then matchLitCI cs ds else none

/-- A matcher state: the remaining input together with the two capture
groups of the dispatch regexes (group 1, the optional digit run; group 2,
the unit-type word). -/
structure PatState where
  rest : List Char
  cap1 : Option String
  cap2 : Option String
deriving DecidableEq, Repr

/-- Token alphabet covering the constructs of the four dispatch-intent
regexes in `detectAndCreateActions`: a (capturing or plain) alternation of
literal words, an optional literal, `\s+`, `\s*`, and the optional
capturing digit run `(\d+)?`. -/
inductive PatTok where
  | lits (alts : List String)
  | litsCap (alts : List String)
  | optLit (lit : String)
  | wsPlus
  | wsStar
  | numOpt
deriving DecidableEq, Repr

/-- Expand one token from one state into its successor states, in
backtracking preference order: earlier alternatives first, and for an
optional token the consuming branch before the skipping branch.  The
whitespace and digit runs are taken greedily, which agrees with the
regexes because in every pattern the token after a run never begins with
a character of that run's class. -/
def stepTok (tok : PatTok) (st : PatState) : List PatState :=
  match tok with
  | PatTok.lits alts =>
      alts.filterMap (fun a =>
        (matchLitCI a.data st.rest).map (fun r => { st with rest := r }))
  | PatTok.litsCap alts =>
      alts.filterMap (fun a =>
        (matchLitCI a.data st.rest).map (fun r =>
          { st with rest := r, cap2 := some (String.mk (st.rest.take a.length)) }))
  | PatTok.optLit lit =>
      (match matchLitCI lit.data st.rest with
       | some r => [{ st with rest := r }]
       | none => []) ++ [st]
  | PatTok.wsPlus =>
      match st.rest with
      | [] => []
      | c :: r =>
          if c.isWhitespace then
            [{ st with rest := r.dropWhile Char.isWhitespace }]
          else []
  | PatTok.wsStar => [{ st with rest := st.rest.dropWhile Char.isWhitespace }]
  | PatTok.numOpt =>
      let ds := st.rest.takeWhile Char.isDigit
      if ds.isEmpty then [st]
      else
        [{ st with rest := st.rest.dropWhile Char.isDigit, cap1 := some (String.mk ds) }]

/-- Run a token sequence over a list of candidate states, keeping
preference order. -/
def runToks : List PatTok → List PatState → List PatState
  | [], sts => sts
  | t :: ts, sts => runToks ts (sts.flatMap (stepTok t))

/-- Match a token sequence at the start of the given characters, returning
the captures of the preferred successful run. -/
def matchToksAt (toks : List PatTok) (s : List Char) :
    Option (Option String × Option String) :=
  match runToks toks [{ rest := s, cap1 := none, cap2 := none }] with
  | [] => none
  | st :: _ => some (st.cap1, st.cap2)

/-- First defined value of the function along the list. -/
def firstSome {α β : Type} (f : α → Option β) : List α → Option β
  | [] => none
  | a :: rest =>
      match f a with
      | some b => some b
      | none => firstSome f rest

/-- Match a pattern anywhere in the text, leftmost position first:
embedding of `text.match(pattern)` for an unanchored case-insensitive
regex. -/
def patMatch (toks : List PatTok) (text : String) :
    Option (Option String × Option String) :=
  firstSome (fun s => matchToksAt toks s) text.data.tails

/-- The unit-type alternation shared by the first two dispatch
patterns. -/
def unitWords : List String :=
  ["police", "officer", "unit", "car", "ambulance", "fire", "emt",
   "paramedic", "truck"]

/-- Tokenization of the regex
`dispatch(?:ing)?\s+(\d+)?\s*(police|officer|unit|car|ambulance|fire|emt|paramedic|truck)`
(flag i) from `dispatchPatterns` in `detectAndCreateActions`. -/
def dispatchPattern1 : List PatTok :=
  [PatTok.lits ["dispatch"], PatTok.optLit "ing", PatTok.wsPlus,
   PatTok.numOpt, PatTok.wsStar, PatTok.litsCap unitWords]

/-- Tokenization of the regex
`send(?:ing)?\s+(\d+)?\s*(police|officer|unit|car|ambulance|fire|emt|paramedic|truck)`
(flag i). -/
def dispatchPattern2 : List PatTok :=
  [PatTok.lits ["send"], PatTok.optLit "ing", PatTok.wsPlus,
   PatTok.numOpt, PatTok.wsStar, PatTok.litsCap unitWords]

/-- Common head of the third dispatch regex
`(\d+)?\s*(police|ambulance|fire)\s+(?:unit|truck|car)s?\s+(?:are|is)\s+...`. -/
def pattern3Core : List PatTok :=
  [PatTok.numOpt, PatTok.wsStar,
   PatTok.litsCap ["police", "ambulance", "fire"], PatTok.wsPlus,
   PatTok.lits ["unit", "truck", "car"], PatTok.optLit "s", PatTok.wsPlus,
   PatTok.lits ["are", "is"], PatTok.wsPlus]

/-- First branch of the third dispatch regex: its trailing alternation
`(?:on\s+(?:the|their)\s+way|en\s+route|dispatched)` is distributed over
the common head into three token sequences (regex alternation distributes
over concatenation), preserving the set of matching texts.  This branch
covers `on\s+(?:the|their)\s+way`. -/
def dispatchPattern3a : List PatTok :=
  pattern3Core ++ [PatTok.lits ["on"], PatTok.wsPlus,
    PatTok.lits ["the", "their"], PatTok.wsPlus, PatTok.lits ["way"]]

/-- Second branch of the third dispatch regex, covering `en\s+route`. -/
def dispatchPattern3b : List PatTok :=
  pattern3Core ++ [PatTok.lits ["en"], PatTok.wsPlus, PatTok.lits ["route"]]

/-- Third branch of the third dispatch regex, covering `dispatched`. -/
def dispatchPattern3c : List PatTok :=
  pattern3Core ++ [PatTok.lits ["dispatched"]]

/-- Tokenization of the regex `help\s+is\s+on\s+(?:the|its)\s+way`
(flag i). -/
def dispatchPattern4 : List PatTok :=
  [PatTok.lits ["help"], PatTok.wsPlus, PatTok.lits ["is"], PatTok.wsPlus,
   PatTok.lits ["on"], PatTok.wsPlus, PatTok.lits ["the", "its"],
   PatTok.wsPlus, PatTok.lits ["way"]]

/-- The dispatch-intent patterns in the order the source loop tries
them. -/
def dispatchPatterns : List (List PatTok) :=
  [dispatchPattern1, dispatchPattern2, dispatchPattern3a,
   dispatchPattern3b, dispatchPattern3c, dispatchPattern4]

/-- JavaScript `x || dflt` on a possibly-absent string: undefined, null
and the empty string fall back to the default. -/
def jsOr (o : Option String) (dflt : String) : String :=
  match o with
  | none => dflt
  | some s => if s = "" then dflt else s

/-- Action status, from `status: 'pending' | 'approved' | 'rejected'`. -/
inductive ActionStatus where
  | pending
  | approved
  | rejected
deriving DecidableEq, Repr

/-- Simulation-call status, from
`status: 'active' | 'completed' | 'pending_action'`. -/
inductive SimStatus where
  | active
  | completed
  | pending_action
deriving DecidableEq, Repr

/-- Action proposal, from `interface AICallAction` (the `type` and
`timestamp` fields, constant and uninspected, are omitted). -/
structure AICallAction where
  id : String
  description : String
  units : String
  location : String
  status : ActionStatus
deriving DecidableEq, Repr

/-- The per-call record manipulated by the action gate, from
`interface AISimulationCall` (transcript and scenario fields omitted). -/
structure AISimulationCall where
  callSid : String
  incident : IncidentDetails
  urgency : Urgency
  actions : List AICallAction
  status : SimStatus
deriving DecidableEq, Repr

/-- Fan-out events emitted by the action gate. -/
inductive SimBroadcast where
  | aiActionRequired (callSid : String) (actionId : String) (description : String)
  | aiCallUpdate (callSid : String)
deriving DecidableEq, Repr

/-- Embedding of `detectAndCreateActions` (server/index.ts lines
725-772): the dispatch patterns are tried in order; the first match
creates exactly one pending action built from the captures
(`match[1] || '1'` units, `match[2] || 'units'` type), appends it to the
call's actions, sets the call status to `pending_action`, broadcasts the
approval-required event plus a call update, and breaks out of the loop;
a non-matching utterance changes nothing.  `newActionId` stands for the
generated `action-...` identifier. -/
def detectAndCreateActions (simCall : AISimulationCall) (text : String)
    (newActionId : String) : AISimulationCall × List SimBroadcast :=
  match firstSome (fun p => patMatch p text) dispatchPatterns with
  | none => (simCall, [])
  | some caps =>
      let units := jsOr caps.1 "1"
      let ty := jsOr caps.2 "units"
      let action : AICallAction :=
        { id := newActionId
          description := "Dispatch " ++ units ++ " " ++ ty ++ " to incident location"
          units := units ++ " " ++ ty
          location := jsOr simCall.incident.location "Location pending"
          status := ActionStatus.pending }
      ({ simCall with actions := simCall.actions ++ [action], status := SimStatus.pending_action },
        [SimBroadcast.aiActionRequired simCall.callSid newActionId action.description,
         SimBroadcast.aiCallUpdate simCall.callSid])

/-- Approval decision delivered by the human approval channel. -/
inductive Decision where
  | approved
  | rejected
deriving DecidableEq, Repr

/-- The action status written by a decision. -/
def Decision.toStatus : Decision → ActionStatus
  | Decision.approved => ActionStatus.approved
  | Decision.rejected => ActionStatus.rejected

/-- Set the status of the first action carrying the id, as
`simCall.actions.find(a => a.id === actionId)` followed by the in-place
`action.status = decision` does. -/
def updateFirstAction : List AICallAction → String → ActionStatus → List AICallAction
  | [], _, _ => []
  | a :: rest, aid, st =>
      if a.id = aid then { a with status := st } :: rest
      else a :: updateFirstAction rest aid st

/-- Embedding of `app.post('/api/action')` (server/index.ts lines
414-436): look up the call; if it exists, find the action by id and, if
found, overwrite its status with the decision unconditionally, then set
the call status to `active` exactly when no pending actions remain;
in every case, including unknown call or action ids, the endpoint
responds `\x7b success: true \x7d`. -/
def apiActionPost (calls : List (String × AISimulationCall))
    (callSid actionId : String) (decision : Decision) :
    List (String × AISimulationCall) × Bool :=
  match lookupA calls callSid with
  | none => (calls, true)
  | some sc =>
      if sc.actions.any (fun a => a.id == actionId) then
        let actions2 := updateFirstAction sc.actions actionId decision.toStatus
        let pendingCount :=
          (actions2.filter (fun a => a.status == ActionStatus.pending)).length
        let status2 := if pendingCount = 0 then SimStatus.active else sc.status
        (setA calls callSid { sc with actions := actions2, status := status2 },
          true)
      else (calls, true)

/-- A simulation call with no actions yet, for concrete runs of the
action gate. -/
def demoSimCall : AISimulationCall :=
  { callSid := "SIM-1", incident := freshIncident, urgency := Urgency.low
    actions := [], status := SimStatus.active }

/-- A call whose single action is already approved, for the double-resolve
scenario. -/
def resolvedActionCall : AISimulationCall :=
  { callSid := "CA7", incident := freshIncident, urgency := Urgency.low
    actions := [{ id := "act-1"
                  description := "Dispatch 2 unit to incident location"
                  units := "2 unit", location := "Location pending"
                  status := ActionStatus.approved }]
    status := SimStatus.active }

/-- A call with a single pending action, for the approval scenario. -/
def pendingActionCall : AISimulationCall :=
  { callSid := "CA6", incident := freshIncident, urgency := Urgency.low
    actions := [{ id := "act-9"
                  description := "Dispatch 1 fire to incident location"
                  units := "1 fire", location := "Location pending"
                  status := ActionStatus.pending }]
    status := SimStatus.pending_action }

theorem lookupA_setA_self {α : Type} (m : List (String × α)) (k : String) (v : α) :
    lookupA (setA m k v) k = some v := by
  induction m with
  | nil => simp [setA, lookupA]
  | cons hd tl ih =>
      obtain ⟨k0, w⟩ := hd
      by_cases h : k0 = k
      · simp [setA, lookupA, h]
      · simp [setA, lookupA, h, ih]

/-- Claim C1 counterexample: merging the extraction update
`\x7b location: null \x7d` into the incident
`\x7b location: "123 Main St", type: "Fire" \x7d` does not leave the known
location unchanged; the object spread overwrites it with null, so a known
field regresses to unknown, contradicting the claim at its own example. -/
theorem c1_counterexample :
    (mergeIncident incidentFireNoLocation updateLocationMain).location
        = some "123 Main St"
    ∧ (mergeIncident (mergeIncident incidentFireNoLocation updateLocationMain)
        updateLocationNull).location = none := by
  constructor
  · rfl
  · rfl

/-- Claim C1 (amended): merging extraction updates into the incident uses
JavaScript object spread, so a field key present with a non-null value
overwrites the stored field, a field key absent from the update leaves the
stored field unchanged, and a field key present with a null value also
overwrites, regressing a known field to unknown; urgency is overwritten
exactly when the update supplies one. -/
theorem mergeIncident_spec (inc : IncidentDetails) (u : AnalysisUpdates)
    (f : IncField) (st : CallState) :
    (∀ s : String, u.get f = some (some s) → (mergeIncident inc u).get f = some s)
    ∧ (u.get f = none → (mergeIncident inc u).get f = inc.get f)
    ∧ (u.get f = some none → (mergeIncident inc u).get f = none)
    ∧ (applyAnalysisUpdates st u).urgency = (u.urgency).getD st.urgency := by
  refine ⟨?_, ?_, ?_, ?_⟩
  · intro s hs
    cases f <;> simp_all [mergeIncident, IncidentDetails.get, AnalysisUpdates.get]
  · intro h
    cases f <;> simp_all [mergeIncident, IncidentDetails.get, AnalysisUpdates.get]
  · intro h
    cases f <;> simp_all [mergeIncident, IncidentDetails.get, AnalysisUpdates.get]
  · rfl

/-- Concrete instantiation of `mergeIncident_spec` at the spec's merge
example, discharging each hypothesis at a concrete input. -/
theorem mergeIncident_spec_witness :
    (mergeIncident incidentFireNoLocation updateLocationMain).get IncField.location
        = some "123 Main St"
    ∧ (mergeIncident incidentFireNoLocation updateLocationMain).get IncField.type
        = incidentFireNoLocation.get IncField.type := by
  constructor
  · exact (mergeIncident_spec incidentFireNoLocation updateLocationMain
      IncField.location freshCallState).1 "123 Main St" rfl
  · exact (mergeIncident_spec incidentFireNoLocation updateLocationMain
      IncField.type freshCallState).2.1 rfl

/-- Claim C2: while a session is speaking, an inbound caller audio frame
(Deepgram server variant, checked inline in the `media` case on every
frame) and an interim recognition signal (current server, Transcript
handler) each trigger barge-in within that same processing step: a clear
signal is sent to the bridge, `speaking` becomes false, the synthesis
handle is cancelled and detached, and no further audio from the cancelled
synthesis is forwarded afterward. -/
theorem bargeIn_inline_clears_and_cancels (s : LiveSession) (payload : String)
    (hspeak : s.speaking = true) (hsid : s.streamSid ≠ "") (hp : payload ≠ "") :
    ((mediaCase s payload).1.speaking = false
      ∧ (mediaCase s payload).1.ttsAttached = false
      ∧ (mediaCase s payload).2
          = [TwilioOut.clear s.streamSid, TwilioOut.toDeepgram payload]
      ∧ ∀ c, ttsForwardChunk (mediaCase s payload).1 c = [])
    ∧ ((interimTranscriptCase s).1.speaking = false
      ∧ (interimTranscriptCase s).1.ttsAttached = false
      ∧ (interimTranscriptCase s).2 = [TwilioOut.clear s.streamSid]
      ∧ ∀ c, ttsForwardChunk (interimTranscriptCase s).1 c = []) := by
  simp [mediaCase, interimTranscriptCase, ttsForwardChunk, hspeak, hsid, hp]

/-- Concrete instantiation of `bargeIn_inline_clears_and_cancels` for a
speaking session with an attached synthesis stream. -/
theorem bargeIn_inline_clears_and_cancels_witness :
    (mediaCase { streamSid := "MZ1", speaking := true, ttsAttached := true }
        "YWJj").1.speaking = false
    ∧ (interimTranscriptCase
        { streamSid := "MZ1", speaking := true, ttsAttached := true }).2
          = [TwilioOut.clear "MZ1"] := by
  have h := bargeIn_inline_clears_and_cancels
    { streamSid := "MZ1", speaking := true, ttsAttached := true } "YWJj"
    rfl (by decide) (by decide)
  exact ⟨h.1.1, h.2.2.2.1⟩

/-- Claim C9: whenever a `startAuraTts` invocation terminates, whether by
HTTP error, by normal stream completion, or by abort, the session's
`speaking` flag is false and its TTS handle is detached; when no session
exists the invocation changes nothing. -/
theorem startAuraTts_spec (m : List (String × LiveSession)) (callSid : String)
    (outcome : TtsOutcome) :
    (lookupA m callSid = none → startAuraTts m callSid outcome = (m, []))
    ∧ (∀ s, lookupA m callSid = some s →
        ∃ s2, lookupA (startAuraTts m callSid outcome).1 callSid = some s2
          ∧ s2.speaking = false ∧ s2.ttsAttached = false) := by
  constructor
  · intro h
    simp [startAuraTts, h]
  · intro s h
    refine ⟨{ s with speaking := false, ttsAttached := false }, ?_, rfl, rfl⟩
    simp [startAuraTts, h, lookupA_setA_self]

/-- Concrete instantiation of `startAuraTts_spec` at an aborted stream. -/
theorem startAuraTts_spec_witness :
    ∃ s2, lookupA (startAuraTts
        [("CA9", { streamSid := "MZ9", speaking := true, ttsAttached := true })]
        "CA9" (TtsOutcome.aborted ["YQ=="])).1 "CA9" = some s2
      ∧ s2.speaking = false ∧ s2.ttsAttached = false :=
  (startAuraTts_spec
    [("CA9", { streamSid := "MZ9", speaking := true, ttsAttached := true })]
    "CA9" (TtsOutcome.aborted ["YQ=="])).2
    { streamSid := "MZ9", speaking := true, ttsAttached := true } rfl

/-- Claim C3 counterexample: two finalized utterances with no completion
in between leave two extraction calls in flight for the session, because
the final-transcript handler starts `analyzeAndBroadcast` unconditionally;
at most one in flight is violated. -/
theorem c3_counterexample :
    (extRun { inflight := 0, messages := [] }
      [ExtEvent.finalUtterance "there is a fire",
       ExtEvent.finalUtterance "at 10 elm street"]).inflight = 2
    ∧ ¬ (extRun { inflight := 0, messages := [] }
      [ExtEvent.finalUtterance "there is a fire",
       ExtEvent.finalUtterance "at 10 elm street"]).inflight ≤ 1 := by
  constructor
  · rfl
  · decide

/-- Claim C3 (amended): the server starts one extraction call per
finalized utterance immediately and without any in-flight guard, so the
number of in-flight extraction calls equals the number of finalized
utterances minus the number of completed calls; nothing bounds it by
one. -/
theorem extRun_inflight (evs : List ExtEvent) (s : ExtState)
    (h : ∀ n, countComplete (evs.take n) ≤ s.inflight + countFinal (evs.take n)) :
    (extRun s evs).inflight = s.inflight + countFinal evs - countComplete evs := by
  induction evs generalizing s with
  | nil => simp [extRun, countFinal, countComplete]
  | cons e rest ih =>
      cases e with
      | finalUtterance t =>
          have hrec := ih (extStep s (ExtEvent.finalUtterance t)) ?_
          · simpa [extRun, extStep, countFinal, countComplete,
              Nat.add_assoc, Nat.add_comm, Nat.add_left_comm] using hrec
          · intro n
            have hn := h (n + 1)
            simpa [extStep, countFinal, countComplete, Nat.add_assoc,
              Nat.add_comm, Nat.add_left_comm] using hn
      | complete =>
          have hpos : 1 ≤ s.inflight := by
            have h1 := h 1
            simpa [countFinal, countComplete] using h1
          have hrec := ih (extStep s ExtEvent.complete) ?_
          · have : (extRun (extStep s ExtEvent.complete) rest).inflight
                = s.inflight - 1 + countFinal rest - countComplete rest := by
              simpa [extStep] using hrec
            simp only [extRun, List.foldl_cons] at *
            rw [this]
            simp [countFinal, countComplete]
            omega
          · intro n
            have hn := h (n + 1)
            simp [extStep, countFinal, countComplete] at hn ⊢
            omega

/-- Concrete instantiation of `extRun_inflight` for one finalized
utterance followed by its completion. -/
theorem extRun_inflight_witness :
    (extRun { inflight := 0, messages := [] }
        [ExtEvent.finalUtterance "fire", ExtEvent.complete]).inflight
      = 0 + countFinal [ExtEvent.finalUtterance "fire", ExtEvent.complete]
          - countComplete [ExtEvent.finalUtterance "fire", ExtEvent.complete] := by
  refine extRun_inflight _ _ ?_
  intro n
  match n with
  | 0 => simp [countFinal, countComplete]
  | 1 => simp [countFinal, countComplete]
  | n + 2 =>
      simp [List.take_succ_cons, countFinal, countComplete]

/-- Claim C5 counterexample: a duplicate start event for an open call sid
is not rejected; it resets the session to a fresh state, dropping the
transcript already accumulated, and attaches a new pipeline connection. -/
theorem c5_counterexample :
    (lookupA dupStartState2.callStates "CA100").map CallState.messages
        = some ["there is a fire"]
    ∧ (lookupA dupStartState3.callStates "CA100").map CallState.messages
        = some []
    ∧ lookupA dupStartState2.connections "CA100" = some 0
    ∧ lookupA dupStartState3.connections "CA100" = some 1 := by
  refine ⟨?_, ?_, ?_, ?_⟩ <;> decide

/-- Claim C5 (amended): the start case installs a brand-new session state
and a newly numbered pipeline connection for the call sid regardless of
whether a session for that sid already exists; a duplicate start therefore
replaces the original session rather than being rejected. -/
theorem startCase_replaces_session (st : RegistryState) (callSid : String) :
    lookupA (startCase st callSid).callStates callSid = some freshCallState
    ∧ lookupA (startCase st callSid).connections callSid = some st.nextConn
    ∧ (startCase st callSid).nextConn = st.nextConn + 1 :=
  ⟨lookupA_setA_self st.callStates callSid freshCallState,
    lookupA_setA_self st.connections callSid st.nextConn, rfl⟩

/-- Routing of a media frame after any sequence of toggle writes depends
only on the session table, which toggle writes never touch. -/
theorem modeRun_flips_media (flips : List Bool) (st : ModeServerState)
    (callSid payload : String) :
    (modeRun st (flips.map ModeEvent.setAiMode
        ++ [ModeEvent.media callSid payload])).2
      = (match lookupA st.sessions callSid with
          | some true => [PipelineOut.toOpenAI payload]
          | some false => [PipelineOut.toDeepgram payload]
          | none => []) := by
  induction flips generalizing st with
  | nil =>
      cases hl : lookupA st.sessions callSid with
      | none => simp [modeRun, modeStep, hl]
      | some b => cases b <;> simp [modeRun, modeStep, hl]
  | cons b rest ih =>
      have h2 := ih { st with aiModeEnabled := b }
      simpa [modeRun, modeStep] using h2

/-- Claim C8: the combined server reads the process-wide `aiModeEnabled`
toggle at session creation, binding it to the call as `isThisCallAiMode`;
any sequence of toggle flips after the call has started leaves the routing
of that call's audio unchanged: the frame goes to the pipeline selected by
the toggle value at start. -/
theorem mode_bound_at_session_start (t : Bool) (flips : List Bool)
    (callSid payload : String) (s0 : List (String × Bool)) :
    (modeRun { aiModeEnabled := t, sessions := s0 }
        (ModeEvent.start callSid :: flips.map ModeEvent.setAiMode
          ++ [ModeEvent.media callSid payload])).2
      = [if t then PipelineOut.toOpenAI payload
         else PipelineOut.toDeepgram payload] := by
  have h := modeRun_flips_media flips
    { aiModeEnabled := t, sessions := setA s0 callSid t } callSid payload
  rw [lookupA_setA_self] at h
  cases t <;> simpa [modeRun, modeStep] using h

/-- Claim C4: two finalized utterances arriving within the debounce
window produce exactly one extraction call; the earlier timer is cleared,
only the latest timer fires, and the call uses the transcript as of the
later utterance. -/
theorem debounce_coalesces (t1 t2 : Nat) (m1 m2 : TranscriptMessage)
    (hwin : t2 < t1 + DEBOUNCE_MS) (hfin : m2.interim = false) :
    extractionCalls [(t1, m1), (t2, m2)] = [[m1, m2]] := by
  have hnot : ¬ (t1 + DEBOUNCE_MS ≤ t2) := by omega
  simp [extractionCalls, firedTimers, callAnalysisApi, List.range_succ,
    hnot, hfin]

/-- Concrete instantiation of `debounce_coalesces`: two final utterances
100 ms apart yield one extraction over both messages. -/
theorem debounce_coalesces_witness :
    extractionCalls
      [(1000, { id := "m1", sender := Sender.caller,
                text := "there is a fire", interim := false }),
       (1100, { id := "m2", sender := Sender.caller,
                text := "at 10 elm street", interim := false })]
      = [[{ id := "m1", sender := Sender.caller,
            text := "there is a fire", interim := false },
          { id := "m2", sender := Sender.caller,
            text := "at 10 elm street", interim := false }]] :=
  debounce_coalesces 1000 1100
    { id := "m1", sender := Sender.caller,
      text := "there is a fire", interim := false }
    { id := "m2", sender := Sender.caller,
      text := "at 10 elm street", interim := false }
    (by decide) rfl

/-- The heuristic fallback always suggests one of its four fixed non-empty
dispatcher questions. -/
theorem mockAnalysis_nextQuestion_mem (messages : List TranscriptMessage)
    (incident : IncidentDetails) (urgency : Urgency) :
    ∃ q, (mockAnalysis messages incident urgency).nextQuestion = some q
      ∧ q ∈ mockQuestions ∧ q ≠ "" := by
  refine ⟨_, rfl, ?_, ?_⟩
  · simp only [mockQuestions]
    split_ifs <;> simp
  · split_ifs <;> decide

/-- Claim C10: the analysis endpoint degrades rather than errors: a
request with an incident payload is answered 200 with a well-formed
analysis body for every Gemini outcome; every failing outcome (missing
key, fetch failure, non-OK status, unparseable output) is answered with
the deterministic heuristic `mockAnalysis`, whose suggested question is
never empty; a request without an incident payload is the only client
error, answered 400. -/
theorem analyze_degrades (inc : IncidentDetails)
    (messages : List TranscriptMessage) (urgency : Urgency)
    (outcome : GeminiOutcome) :
    analyzePOST none messages urgency outcome = (400, none)
    ∧ (analyzePOST (some inc) messages urgency outcome).1 = 200
    ∧ (analyzePOST (some inc) messages urgency outcome).2.isSome = true
    ∧ ((∀ r, outcome ≠ GeminiOutcome.ok r) →
        (analyzePOST (some inc) messages urgency outcome).2
          = some (mockAnalysis messages inc urgency))
    ∧ ∃ q, (mockAnalysis messages inc urgency).nextQuestion = some q
        ∧ q ≠ "" := by
  refine ⟨rfl, ?_, ?_, ?_, ?_⟩
  · cases outcome <;> simp [analyzePOST, runGeminiAnalysis]
  · cases outcome <;> simp [analyzePOST, runGeminiAnalysis]
  · intro hfail
    cases outcome with
    | noApiKey => simp [analyzePOST, runGeminiAnalysis]
    | fetchFailed => simp [analyzePOST, runGeminiAnalysis]
    | httpNotOk status => simp [analyzePOST, runGeminiAnalysis]
    | unparseable => simp [analyzePOST, runGeminiAnalysis]
    | ok r => exact absurd rfl (hfail r)
  · obtain ⟨q, hq, _, hne⟩ := mockAnalysis_nextQuestion_mem messages inc urgency
    exact ⟨q, hq, hne⟩

/-- Concrete instantiation of `analyze_degrades` at an unparseable model
output: the endpoint still answers with the heuristic body. -/
theorem analyze_degrades_witness :
    (analyzePOST (some freshIncident) [] Urgency.low
        GeminiOutcome.unparseable).2
      = some (mockAnalysis [] freshIncident Urgency.low) :=
  (analyze_degrades freshIncident [] Urgency.low
    GeminiOutcome.unparseable).2.2.2.1
    (fun _ h => GeminiOutcome.noConfusion h)

/-- Claim C6: an utterance matching a dispatch-intent pattern creates
exactly one new pending action (first matching pattern wins, via the
`break` after a match), appends it to the call's actions, sets the call
status to the awaiting-approval state and emits the approval-required
fan-out event; a non-matching utterance changes nothing and emits
nothing. -/
theorem detectAndCreateActions_spec (sc : AISimulationCall) (text : String)
    (aid : String) :
    (firstSome (fun p => patMatch p text) dispatchPatterns = none →
      detectAndCreateActions sc text aid = (sc, []))
    ∧ (∀ caps, firstSome (fun p => patMatch p text) dispatchPatterns = some caps →
        (detectAndCreateActions sc text aid).1.actions.length
            = sc.actions.length + 1
        ∧ (detectAndCreateActions sc text aid).1.status = SimStatus.pending_action
        ∧ SimBroadcast.aiActionRequired sc.callSid aid
            ("Dispatch " ++ jsOr caps.1 "1" ++ " " ++ jsOr caps.2 "units"
              ++ " to incident location")
            ∈ (detectAndCreateActions sc text aid).2) := by
  constructor
  · intro h
    simp [detectAndCreateActions, h]
  · intro caps h
    simp [detectAndCreateActions, h]

/-- Concrete instantiation of `detectAndCreateActions_spec`: a matching
dispatcher utterance creates one action, a question creates none. -/
theorem detectAndCreateActions_spec_witness :
    ((detectAndCreateActions demoSimCall
        "We are dispatching 2 units to 5th and Main" "action-1").1.actions.length
      = demoSimCall.actions.length + 1)
    ∧ detectAndCreateActions demoSimCall "What is your exact address" "action-2"
        = (demoSimCall, []) := by
  constructor
  · exact ((detectAndCreateActions_spec demoSimCall
      "We are dispatching 2 units to 5th and Main" "action-1").2
      (some "2", some "unit") (by decide)).1
  · exact (detectAndCreateActions_spec demoSimCall
      "What is your exact address" "action-2").1 (by decide)

/-- Resolving an action id updates the status of the first action bearing
that id and only that one. -/
theorem updateFirstAction_find (acts : List AICallAction) (aid : String)
    (st : ActionStatus) :
    (updateFirstAction acts aid st).find? (fun a => a.id == aid)
      = (acts.find? (fun a => a.id == aid)).map (fun a => { a with status := st }) := by
  induction acts with
  | nil => simp [updateFirstAction]
  | cons a rest ih =>
      by_cases h : a.id = aid
      · simp [updateFirstAction, h]
      · simp [updateFirstAction, h, ih]

/-- Claim C7 counterexample: resolving an already-approved action a second
time with the opposite decision is not a no-op reported as an error: the
endpoint overwrites the action's status with the new decision and responds
`success: true`. -/
theorem c7_counterexample :
    (apiActionPost [("CA7", resolvedActionCall)] "CA7" "act-1"
        Decision.rejected).2 = true
    ∧ (lookupA (apiActionPost [("CA7", resolvedActionCall)] "CA7" "act-1"
          Decision.rejected).1 "CA7").map
        (fun sc => sc.actions.map AICallAction.status)
        = some [ActionStatus.rejected] := by
  constructor
  · rfl
  · decide

/-- Claim C7 (amended): when call and action exist, resolve overwrites the
first matching action's status with the decision, even if already
resolved, and sets the session status to Active exactly when zero pending
actions remain (otherwise leaving it unchanged); an unknown call id or
action id leaves all state unchanged; in every case the endpoint responds
`success: true` rather than an error, and never throws. -/
theorem apiActionPost_spec (calls : List (String × AISimulationCall))
    (callSid actionId : String) (d : Decision) :
    (lookupA calls callSid = none →
      apiActionPost calls callSid actionId d = (calls, true))
    ∧ (∀ sc, lookupA calls callSid = some sc →
        sc.actions.any (fun a => a.id == actionId) = false →
        apiActionPost calls callSid actionId d = (calls, true))
    ∧ (∀ sc, lookupA calls callSid = some sc →
        sc.actions.any (fun a => a.id == actionId) = true →
        (apiActionPost calls callSid actionId d).2 = true
        ∧ ∃ sc2, lookupA (apiActionPost calls callSid actionId d).1 callSid
              = some sc2
          ∧ sc2.actions = updateFirstAction sc.actions actionId d.toStatus
          ∧ sc2.actions.find? (fun a => a.id == actionId)
              = (sc.actions.find? (fun a => a.id == actionId)).map
                  (fun a => { a with status := d.toStatus })
          ∧ ((sc2.actions.filter
                (fun a => a.status == ActionStatus.pending)).length = 0
              → sc2.status = SimStatus.active)
          ∧ ((sc2.actions.filter
                (fun a => a.status == ActionStatus.pending)).length ≠ 0
              → sc2.status = sc.status)) := by
  refine ⟨?_, ?_, ?_⟩
  · intro h
    simp [apiActionPost, h]
  · intro sc h hna
    simp [apiActionPost, h, hna]
  · intro sc h ha
    constructor
    · simp [apiActionPost, h, ha]
    · refine ⟨{ sc with
          actions := updateFirstAction sc.actions actionId d.toStatus
          status := if ((updateFirstAction sc.actions actionId d.toStatus).filter
              (fun a => a.status == ActionStatus.pending)).length = 0
            then SimStatus.active else sc.status }, ?_, rfl, ?_, ?_, ?_⟩
      · simp [apiActionPost, h, ha, lookupA_setA_self]
      · exact updateFirstAction_find sc.actions actionId d.toStatus
      · intro h0
        simp [h0]
      · intro h0
        simp [h0]

/-- Concrete instantiation of `apiActionPost_spec`: approving the only
pending action returns the session status to Active. -/
theorem apiActionPost_spec_witness :
    ∃ sc2, lookupA (apiActionPost [("CA6", pendingActionCall)] "CA6" "act-9"
        Decision.approved).1 "CA6" = some sc2
      ∧ sc2.actions = updateFirstAction pendingActionCall.actions "act-9"
          ActionStatus.approved
      ∧ sc2.status = SimStatus.active := by
  obtain ⟨hresp, sc2, hlook, hacts, hfind, hzero, hnz⟩ :=
    ((apiActionPost_spec [("CA6", pendingActionCall)] "CA6" "act-9"
      Decision.approved).2.2 pendingActionCall (by decide) (by decide))
  refine ⟨sc2, hlook, hacts, ?_⟩
  apply hzero
  rw [hacts]
  decide
